import Mathlib

/-!
Shallow embedding of the consensus and synchronization engine of the
rust-blockchain repository (src/main.rs and src/p2p.rs).

Modelling conventions, matching the source:
* Machine integers (`u64` ids and nonces, `i64` timestamps) are modelled as
  `Nat` / `Int`; no operation in the engine comes near the 64-bit range on the
  inputs the claims are about, so wrap-around is irrelevant.
* A Rust `panic!` / `.expect(..)` is modelled as `Except.error p` where `p`
  names the panicking call site: a panic aborts the process, so an `error`
  value here means "the node terminated", never a recoverable signal.
* The canonical block digest `calculate_hash` builds a JSON object with field
  set (block_id, prev_hash, data, timestamp, nonce) and feeds its textual
  form to SHA-256; the JSON encoder and SHA-256 live in the external crates
  serde_json and sha2, outside this repository, so the composite digest
  function is threaded through the definitions as an explicit parameter of
  type `HashFn`.  No claim depends on the internals of the digest.
* The unbounded mining loop is given an explicit fuel argument; running out of
  fuel (`none`) means "the loop is still running after that many iterations".
* Rust string primitives used by the engine are re-modelled over `List Char`
  (`strStartsWith` for `str::starts_with`, `stripPre` for `str::strip_prefix`,
  `hexEncode` / `hex_decode` for the external hex crate); all inputs involved
  are ASCII, where character and byte positions agree.
-/

/-- Type of the canonical digest function `calculate_hash(block_id, timestamp,
prev_hash, data, nonce)` from src/main.rs, kept abstract because its body is
serde_json + SHA-256 from external crates.  Result is the digest byte list. -/
abbrev HashFn := Nat → Int → String → String → Nat → List Nat

/-- `Block` from src/main.rs, field for field. -/
structure Block where
  block_id : Nat
  hash : String
  prev_hash : String
  timestamp : Int
  data : String
  nonce : Nat
deriving DecidableEq

/-- `App` from src/main.rs: the non-persistent blockchain state. -/
structure App where
  blockchain : List Block
deriving DecidableEq

/-- The panicking call sites of the engine.  Each constructor stands for one
`panic!` / `.expect(..)` in the source; reaching it terminates the process. -/
inductive Panic where
  /-- the `.expect` on `hex::decode(&block.hash)` in `App::is_block_valid` -/
  | hexDecodeFailed
  /-- the `.expect` on `blockchain.last()` in `App::try_add_block` -/
  | emptyChainTryAdd
  /-- the `.expect` on `blockchain.last()` in `p2p::handle_create_block` -/
  | emptyChainCreateBlock
  /-- the `panic!` closing `App::choose_chain` -/
  | bothChainsInvalid
deriving DecidableEq

/-- Model of Rust `str::starts_with` on ASCII strings. -/
def strStartsWith (s p : String) : Bool := p.data.isPrefixOf s.data

/-- Model of Rust `str::strip_prefix` on ASCII strings: remove `p` from the
front of `s` when present. -/
def stripPre (p s : String) : Option String :=
  if strStartsWith s p then some (String.mk (s.data.drop p.data.length)) else none

/-- `DIFFICULTY_PREFIX` from src/main.rs. -/
def DIFFICULTY_PREFIX : String := "00"

/-- Rust `format!("\x7b:b\x7d", c)`: minimal-width base-2 rendering of a
number, `0` rendering as `"0"`.  `Nat.toDigits 2` has exactly this behaviour. -/
def formatB (n : Nat) : String := String.mk (Nat.toDigits 2 n)

/-- `hash_to_binary_representation` from src/main.rs: concatenate the
minimal-width binary rendering of every byte of the digest. -/
def hash_to_binary_representation (hash : List Nat) : String :=
  String.join (hash.map formatB)

/-- The difficulty predicate: the source inlines the starts-with test of the
binary rendering against DIFFICULTY_PREFIX both in `mine_block` and in
`App::is_block_valid`; the spec names the combination `meets_difficulty`. -/
def meets_difficulty (digest : List Nat) : Bool :=
  strStartsWith (hash_to_binary_representation digest) DIFFICULTY_PREFIX

/-- Lowercase hex digit of a value below 16 (hex crate encoding). -/
def hexDigitChar (n : Nat) : Char :=
  if n < 10 then Char.ofNat (n + ('0').toNat) else Char.ofNat (n - 10 + ('a').toNat)

/-- Model of `hex::encode`: two lowercase hex digits per byte. -/
def hexEncode (bytes : List Nat) : String :=
  String.mk (bytes.foldr (fun b acc => hexDigitChar (b / 16) :: hexDigitChar (b % 16) :: acc) [])

/-- Value of one hex digit character, `none` on a non-hex character; both
letter cases are accepted, as in the hex crate. -/
def hexDigitVal (c : Char) : Option Nat :=
  if ('0').toNat ≤ c.toNat ∧ c.toNat ≤ ('9').toNat then some (c.toNat - ('0').toNat)
  else if ('a').toNat ≤ c.toNat ∧ c.toNat ≤ ('f').toNat then some (c.toNat - ('a').toNat + 10)
  else if ('A').toNat ≤ c.toNat ∧ c.toNat ≤ ('F').toNat then some (c.toNat - ('A').toNat + 10)
  else none

/-- Model of `hex::decode` on a character list: fails on odd length or on any
non-hex character, otherwise yields one byte per digit pair. -/
def hexDecodeChars : List Char → Option (List Nat)
  | [] => some []
  | [_] => none
  | c1 :: c2 :: rest =>
    match hexDigitVal c1, hexDigitVal c2, hexDecodeChars rest with
    | some hi, some lo, some tail => some ((16 * hi + lo) :: tail)
    | _, _, _ => none

/-- Model of `hex::decode` on a string. -/
def hex_decode (s : String) : Option (List Nat) := hexDecodeChars s.data

/-- `App::is_block_valid` from src/main.rs.  The four checks in source order:
previous-hash link, difficulty of the hex-decoded stored hash, id sequence,
recomputed hash.  The `.expect` on the hex decode is the `error` branch. -/
def is_block_valid (calculate_hash : HashFn) (block prev_block : Block) : Except Panic Bool :=
  if block.prev_hash ≠ prev_block.hash then Except.ok false
  else
    match hex_decode block.hash with
    | none => Except.error Panic.hexDecodeFailed
    | some decoded =>
      if ! meets_difficulty decoded then Except.ok false
      else if block.block_id ≠ prev_block.block_id + 1 then Except.ok false
      else if hexEncode (calculate_hash block.block_id block.timestamp block.prev_hash block.data block.nonce) ≠ block.hash then Except.ok false
      else Except.ok true

/-- Loop body of `App::is_chain_valid`: the source iterates `i` over
`0..chain.len()`, skips `i = 0`, and checks the pair `(chain[i-1], chain[i])`;
this is rendered as recursion over adjacent pairs, preserving order,
short-circuiting and panic propagation. -/
def chainPairsValid (calculate_hash : HashFn) : List Block → Except Panic Bool
  | [] => Except.ok true
  | [_] => Except.ok true
  | first :: second :: rest =>
    match is_block_valid calculate_hash second first with
    | Except.error e => Except.error e
    | Except.ok false => Except.ok false
    | Except.ok true => chainPairsValid calculate_hash (second :: rest)

/-- `App::is_chain_valid` from src/main.rs. -/
def is_chain_valid (calculate_hash : HashFn) (chain : List Block) : Except Panic Bool :=
  chainPairsValid calculate_hash chain

/-- `App::choose_chain` from src/main.rs.  Validates both candidates (a panic
inside validation propagates), then: both valid → longer wins with ties going
to `localChain`; exactly one valid → the valid one; both invalid → `panic!`. -/
def choose_chain (calculate_hash : HashFn) (localChain remote : List Block) : Except Panic (List Block) :=
  match is_chain_valid calculate_hash localChain with
  | Except.error e => Except.error e
  | Except.ok is_local_valid =>
    match is_chain_valid calculate_hash remote with
    | Except.error e => Except.error e
    | Except.ok is_remote_valid =>
      if is_local_valid && is_remote_valid then
        if localChain.length ≥ remote.length then Except.ok localChain else Except.ok remote
      else if is_remote_valid && !is_local_valid then Except.ok remote
      else if is_local_valid && !is_remote_valid then Except.ok localChain
      else Except.error Panic.bothChainsInvalid

/-- `App::try_add_block` from src/main.rs: unwraps the last block (panic on an
empty chain), pushes the block if valid, leaves the chain unchanged (after an
error log) if invalid; a panic inside validation propagates. -/
def try_add_block (calculate_hash : HashFn) (app : App) (block : Block) : Except Panic App :=
  match app.blockchain.getLast? with
  | none => Except.error Panic.emptyChainTryAdd
  | some latest_block =>
    match is_block_valid calculate_hash block latest_block with
    | Except.error e => Except.error e
    | Except.ok true => Except.ok { blockchain := app.blockchain ++ [block] }
    | Except.ok false => Except.ok app

/-- The genesis block built by `App::genesis`, with the timestamp (the one
impure input, `Utc::now()`) taken as a parameter. -/
def genesisBlock (t : Int) : Block :=
  { block_id := 0
    hash := "Genesis Hash"
    prev_hash := "---"
    timestamp := t
    data := "Genesis Block"
    nonce := 2108 }

/-- `App::genesis` from src/main.rs: unconditionally pushes the genesis block
onto the chain. -/
def App.genesis (t : Int) (app : App) : App :=
  { blockchain := app.blockchain ++ [genesisBlock t] }

/-- Chain-state effect of the `EventType::Init` branch of `main`: it calls
`app.genesis()` with no emptiness check.  (The rest of the branch only reads
the peer list and publishes a chain request; it does not touch the chain.) -/
def handleInit (t : Int) (app : App) : App :=
  App.genesis t app

/-- Loop of `mine_block` from src/main.rs, with explicit fuel: starting from
the given nonce, test `meets_difficulty` of the digest and either return
`(nonce, hex(digest))` or retry with `nonce + 1`.  `none` means the unbounded
source loop has not finished within `fuel` iterations. -/
def mineLoop (calculate_hash : HashFn) (block_id : Nat) (timestamp : Int) (prev_hash data : String) : Nat → Nat → Option (Nat × String)
  | 0, _ => none
  | fuel + 1, nonce =>
    let hash := calculate_hash block_id timestamp prev_hash data nonce
    if meets_difficulty hash then some (nonce, hexEncode hash)
    else mineLoop calculate_hash block_id timestamp prev_hash data fuel (nonce + 1)

/-- `mine_block` from src/main.rs: the search starts at nonce 0. -/
def mine_block (calculate_hash : HashFn) (fuel : Nat) (block_id : Nat) (timestamp : Int) (prev_hash data : String) : Option (Nat × String) :=
  mineLoop calculate_hash block_id timestamp prev_hash data fuel 0

/-- `Block::new` from src/main.rs, with the `Utc::now()` timestamp passed in:
mine, then assemble the block from the returned nonce and hash. -/
def Block.new (calculate_hash : HashFn) (fuel : Nat) (t : Int) (block_id : Nat) (prev_hash data : String) : Option Block :=
  match mine_block calculate_hash fuel block_id t prev_hash data with
  | none => none
  | some (nonce, hash) =>
    some { block_id := block_id
           hash := hash
           prev_hash := prev_hash
           timestamp := t
           data := data
           nonce := nonce }

/-- `p2p::handle_create_block`: strip the text prefix "create b" from the
command (doing nothing when absent), unwrap the last block (panic on an empty
chain), mine the next block, append it, and publish it on the block topic.
Result: the new `App` plus the list of blocks published on the block-gossip
channel; the inner `none` means mining is still running after `fuel` steps. -/
def handle_create_block (calculate_hash : HashFn) (fuel : Nat) (t : Int) (cmd : String) (app : App) : Except Panic (Option (App × List Block)) :=
  match stripPre "create b" cmd with
  | none => Except.ok (some (app, []))
  | some data =>
    match app.blockchain.getLast? with
    | none => Except.error Panic.emptyChainCreateBlock
    | some latest_block =>
      match Block.new calculate_hash fuel t (latest_block.block_id + 1) latest_block.hash data with
      | none => Except.ok none
      | some block => Except.ok (some ({ blockchain := app.blockchain ++ [block] }, [block]))

/-- Chain-state effect of the `EventType::Input` dispatch in `main`: the two
`ls` commands and unknown commands leave the chain untouched and publish no
block; a line starting with "create block" goes to `handle_create_block`. -/
def handleInput (calculate_hash : HashFn) (fuel : Nat) (t : Int) (line : String) (app : App) : Except Panic (Option (App × List Block)) :=
  if line = "ls peers" then Except.ok (some (app, []))
  else if strStartsWith line "ls chain" then Except.ok (some (app, []))
  else if strStartsWith line "create block" then handle_create_block calculate_hash fuel t line app
  else Except.ok (some (app, []))

/-- Spec.md 4.1, modelled from the spec words: digits of the minimal-width
base-2 representation, most significant first, empty for 0 (fuel variant of
division by two, fuel `n` sufficing since the argument halves each step). -/
def minWidthBinAux : Nat → Nat → List Char
  | 0, _ => []
  | fuel + 1, n =>
    if n = 0 then []
    else minWidthBinAux fuel (n / 2) ++ [if n % 2 = 1 then '1' else '0']

/-- Spec.md 4.1, modelled from the spec words: the minimal-width base-2
representation of a byte value, "a byte value of 3 contributes 11, not
00000011"; the representation of 0 is "0". -/
def minWidthBin (n : Nat) : String :=
  if n = 0 then "0" else String.mk (minWidthBinAux n n)

/-- Spec.md 4.1, modelled from the spec words: render a digest by
concatenating the minimal-width base-2 representation of each byte. -/
def specRender (digest : List Nat) : String :=
  String.join (digest.map minWidthBin)

/-- Digest function used for concrete evaluations: every digest is the two
zero bytes, which render as "00" and hence always meet the difficulty. -/
def calcHash0 : HashFn := fun _ _ _ _ _ => [0, 0]

/-- Concrete block used as the head of the invalid example chains. -/
def blockA : Block :=
  { block_id := 0, hash := "aa", prev_hash := "---", timestamp := 0, data := "a", nonce := 0 }

/-- Concrete block whose `prev_hash` does not match `blockA.hash`, making any
chain `[blockA, blockBbad]` fail validation at the first rule. -/
def blockBbad : Block :=
  { block_id := 1, hash := "bb", prev_hash := "xx", timestamp := 0, data := "b", nonce := 0 }

/-- Second mismatching block, for a distinct invalid remote chain. -/
def blockCbad : Block :=
  { block_id := 1, hash := "cc", prev_hash := "yy", timestamp := 0, data := "c", nonce := 0 }

/-- An invalid chain: the second block fails the previous-hash rule. -/
def badChainL : List Block := [blockA, blockBbad]

/-- Another invalid chain, distinct from `badChainL`. -/
def badChainR : List Block := [blockA, blockCbad]

/-- Concrete non-genesis block used to exercise the Init handler on a chain
that is already non-empty. -/
def cxBlock : Block :=
  { block_id := 5, hash := "aa", prev_hash := "---", timestamp := 0, data := "x", nonce := 0 }

set_option maxHeartbeats 1000000 in
set_option maxRecDepth 10000 in
/-- Helper: the source rendering (Rust binary formatting) agrees with the
spec-modelled minimal-width base-2 representation on every byte value. -/
theorem formatB_eq_minWidthBin : ∀ n, n < 256 → formatB n = minWidthBin n := by decide

/-- C1 counterexample: two concrete chains that each fail validation (the
second block of each has a mismatching previous hash).  `choose_chain` on them
reaches the `panic!` branch — in this model `Except.error Panic.bothChainsInvalid`,
i.e. process termination — so it does not signal a recoverable error
condition. -/
theorem choose_chain_both_invalid_eval :
    is_chain_valid calcHash0 badChainL = Except.ok false ∧
    is_chain_valid calcHash0 badChainR = Except.ok false ∧
    choose_chain calcHash0 badChainL badChainR = Except.error Panic.bothChainsInvalid :=
  ⟨rfl, rfl, rfl⟩

/-- C1 amended: when `is_chain_valid` returns false for both the local and the
remote chain, `choose_chain` panics (the `panic!` call modelled as
`Except.error Panic.bothChainsInvalid`), terminating the process instead of
returning a chain; no chain value is produced. -/
theorem choose_chain_both_invalid_panics (calculate_hash : HashFn) (localChain remote : List Block)
    (hl : is_chain_valid calculate_hash localChain = Except.ok false)
    (hr : is_chain_valid calculate_hash remote = Except.ok false) :
    choose_chain calculate_hash localChain remote = Except.error Panic.bothChainsInvalid := by
  unfold choose_chain
  rw [hl, hr]
  simp

/-- C1 witness: the amended statement applied to the concrete invalid chains. -/
theorem choose_chain_both_invalid_panics_witness :
    choose_chain calcHash0 badChainL badChainR = Except.error Panic.bothChainsInvalid :=
  choose_chain_both_invalid_panics calcHash0 badChainL badChainR rfl rfl

/-- C2: evaluation of the coordinator input dispatch at the failing input
"create block hello" on a chain holding only the genesis block.  The handler
strips only "create b" from the line, so the data field of the new block is
"lock hello", not "hello": the code contradicts its own comment that the text
after "create block " becomes the block content. -/
theorem create_block_cmd_eval :
    handleInput calcHash0 1 0 "create block hello" (App.mk [genesisBlock 0]) =
      Except.ok (some (App.mk [genesisBlock 0, Block.mk 1 "0000" "Genesis Hash" 0 "lock hello" 0],
        [Block.mk 1 "0000" "Genesis Hash" 0 "lock hello" 0])) ∧
    (Block.mk 1 "0000" "Genesis Hash" 0 "lock hello" 0).data ≠ "hello" :=
  ⟨rfl, by decide⟩

/-- C3 counterexample: handling Init on a chain that is already non-empty
still appends a genesis block — the handler has no emptiness check — so the
genesis block is not created "only if the chain is still empty", and the block
at index 0 afterwards is the pre-existing block, not the new genesis. -/
theorem init_on_nonempty_chain_eval :
    (App.mk [cxBlock]).blockchain ≠ [] ∧
    handleInit 0 (App.mk [cxBlock]) = App.mk [cxBlock, genesisBlock 0] ∧
    App.mk [cxBlock, genesisBlock 0] ≠ App.mk [cxBlock] :=
  ⟨by decide, rfl, by decide⟩

/-- C3 amended: handling Init unconditionally appends a fresh genesis block to
the chain (the startup timer fires only once, so in the intended run this
happens exactly once); when the chain is still empty at Init, afterwards it is
exactly the one-element chain holding the genesis block, whose id is 0. -/
theorem handleInit_appends_genesis (t : Int) (app : App)
    (hempty : app.blockchain = []) :
    (handleInit t app).blockchain = app.blockchain ++ [genesisBlock t] ∧
    (handleInit t app).blockchain = [genesisBlock t] ∧
    (genesisBlock t).block_id = 0 :=
  ⟨rfl, by simp [handleInit, App.genesis, hempty], rfl⟩

/-- C3 witness: the amended statement applied to the empty chain. -/
theorem handleInit_appends_genesis_witness :
    (handleInit 0 (App.mk [])).blockchain = (App.mk []).blockchain ++ [genesisBlock 0] ∧
    (handleInit 0 (App.mk [])).blockchain = [genesisBlock 0] ∧
    (genesisBlock 0).block_id = 0 :=
  handleInit_appends_genesis 0 (App.mk []) rfl

/-- C4: whenever at least one of the two candidate chains validates (and both
validations return, rather than panicking), `choose_chain` returns the longer
chain when both are valid, the local chain on a tie of valid chains, and the
unique valid chain — regardless of length — when exactly one is valid. -/
theorem choose_chain_correct (calculate_hash : HashFn) (localChain remote : List Block) (lv rv : Bool)
    (hl : is_chain_valid calculate_hash localChain = Except.ok lv)
    (hr : is_chain_valid calculate_hash remote = Except.ok rv)
    (hone : lv = true ∨ rv = true) :
    choose_chain calculate_hash localChain remote =
      Except.ok (if lv && rv then (if localChain.length ≥ remote.length then localChain else remote)
                 else if lv then localChain else remote) := by
  unfold choose_chain
  rw [hl, hr]
  cases lv with
  | false =>
    cases rv with
    | false => simp at hone
    | true => simp
  | true =>
    cases rv with
    | false => simp
    | true => by_cases hlen : localChain.length ≥ remote.length <;> simp [hlen]

/-- C4 witness: a valid one-block local chain against the (trivially valid)
empty remote chain; both valid and local at least as long, so local wins. -/
theorem choose_chain_correct_witness :
    choose_chain calcHash0 [genesisBlock 0] [] = Except.ok [genesisBlock 0] := by
  have h := choose_chain_correct calcHash0 [genesisBlock 0] [] true true rfl rfl (Or.inl rfl)
  simpa using h

/-- C5: `is_block_valid` returns true exactly when all four rules hold — the
previous-hash link, the difficulty of the (successfully) hex-decoded stored
hash, the id sequence, and the recomputed-hash equality.  The fixed evaluation
order and short-circuiting are those of the definition, which mirrors the
source branch for branch. -/
theorem is_block_valid_ok_true_iff (calculate_hash : HashFn) (b p : Block) :
    is_block_valid calculate_hash b p = Except.ok true ↔
      (b.prev_hash = p.hash ∧
       (∃ decoded, hex_decode b.hash = some decoded ∧ meets_difficulty decoded = true) ∧
       b.block_id = p.block_id + 1 ∧
       hexEncode (calculate_hash b.block_id b.timestamp b.prev_hash b.data b.nonce) = b.hash) := by
  unfold is_block_valid
  by_cases h1 : b.prev_hash = p.hash
  · cases hd : hex_decode b.hash with
    | none => simp [h1, hd]
    | some decoded =>
      by_cases h2 : meets_difficulty decoded = true
      · by_cases h3 : b.block_id = p.block_id + 1
        · by_cases h4 : hexEncode (calculate_hash b.block_id b.timestamp b.prev_hash b.data b.nonce) = b.hash
          · simp [h1, hd, h2, h3, h4]
          · simp [h1, hd, h2, h3, h4]
        · simp [h1, hd, h2, h3]
      · simp [h1, hd, h2]
  · simp [h1]

/-- C5 witness: a concrete block satisfying all four rules under `calcHash0`
is accepted. -/
theorem is_block_valid_ok_true_iff_witness :
    is_block_valid calcHash0 (Block.mk 1 "0000" "Genesis Hash" 0 "lock hello" 0) (genesisBlock 0) = Except.ok true :=
  (is_block_valid_ok_true_iff calcHash0 (Block.mk 1 "0000" "Genesis Hash" 0 "lock hello" 0) (genesisBlock 0)).mpr
    ⟨rfl, ⟨[0, 0], rfl, rfl⟩, rfl, rfl⟩

/-- C6: `is_chain_valid` returns true exactly when every adjacent pair
`(chain[i], chain[i+1])` validates — index 0 is never checked as a block, and
chains of length 0 or 1 have no pairs, so the right-hand side is vacuously
true for them. -/
theorem is_chain_valid_ok_true_iff (calculate_hash : HashFn) (chain : List Block) :
    is_chain_valid calculate_hash chain = Except.ok true ↔
      ∀ i, (h : i + 1 < chain.length) →
        is_block_valid calculate_hash (chain.get ⟨i + 1, h⟩) (chain.get ⟨i, Nat.lt_of_succ_lt h⟩) = Except.ok true := by
  unfold is_chain_valid
  induction chain with
  | nil =>
    constructor
    · intro _ i h
      exact absurd h (by simp)
    · intro _
      rfl
  | cons a t ih =>
    cases t with
    | nil =>
      constructor
      · intro _ i h
        simp at h
      · intro _
        rfl
    | cons b rest =>
      have hunfold : chainPairsValid calculate_hash (a :: b :: rest) =
          match is_block_valid calculate_hash b a with
          | Except.error e => Except.error e
          | Except.ok false => Except.ok false
          | Except.ok true => chainPairsValid calculate_hash (b :: rest) := rfl
      rw [hunfold]
      cases hba : is_block_valid calculate_hash b a with
      | error e =>
        constructor
        · intro hcontra
          simp at hcontra
        · intro hall
          have h0 : (0 : Nat) + 1 < (a :: b :: rest).length := by simp
          have := hall 0 h0
          simp [List.get_cons_succ, List.get_cons_zero, hba] at this
      | ok v =>
        cases v with
        | false =>
          constructor
          · intro hcontra
            simp at hcontra
          · intro hall
            have h0 : (0 : Nat) + 1 < (a :: b :: rest).length := by simp
            have := hall 0 h0
            simp [List.get_cons_succ, List.get_cons_zero, hba] at this
        | true =>
          simp only []
          rw [ih]
          constructor
          · intro hall i h
            cases i with
            | zero =>
              simpa [List.get_cons_succ, List.get_cons_zero] using hba
            | succ j =>
              have hj : j + 1 < (b :: rest).length := by
                simp at h
                simpa using h
              have := hall j hj
              simpa [List.get_cons_succ] using this
          · intro hall i h
            have hi : i + 1 + 1 < (a :: b :: rest).length := by
              simp at h
              simpa using h
            have := hall (i + 1) hi
            simpa [List.get_cons_succ] using this

/-- C6 witness: a one-block chain validates (no adjacent pairs). -/
theorem is_chain_valid_ok_true_iff_witness :
    is_chain_valid calcHash0 [genesisBlock 0] = Except.ok true :=
  (is_chain_valid_ok_true_iff calcHash0 [genesisBlock 0]).mpr
    (fun _ h => absurd h (by simp))

/-- C7: for a 32-byte digest, the source bit rendering coincides with the
spec-modelled concatenation of minimal-width base-2 byte representations, and
the difficulty predicate holds exactly when that rendering starts with the
two characters "00". -/
theorem meets_difficulty_spec_rendering (d : List Nat)
    (hlen : d.length = 32) (hbytes : ∀ b ∈ d, b < 256) :
    hash_to_binary_representation d = specRender d ∧
    (meets_difficulty d = true ↔ strStartsWith (specRender d) "00" = true) := by
  have hmap : d.map formatB = d.map minWidthBin :=
    List.map_congr_left (fun b hb => formatB_eq_minWidthBin b (hbytes b hb))
  have hrender : hash_to_binary_representation d = specRender d := by
    unfold hash_to_binary_representation specRender
    rw [hmap]
  refine ⟨hrender, ?_⟩
  simp [meets_difficulty, DIFFICULTY_PREFIX, hrender]

/-- C7 witness: the all-zero 32-byte digest renders as thirty-two zero
characters, which starts with "00", so it meets the difficulty. -/
theorem meets_difficulty_spec_rendering_witness :
    hash_to_binary_representation (List.replicate 32 0) = specRender (List.replicate 32 0) ∧
    (meets_difficulty (List.replicate 32 0) = true ↔
      strStartsWith (specRender (List.replicate 32 0)) "00" = true) :=
  meets_difficulty_spec_rendering (List.replicate 32 0) (by decide) (by decide)

/-- Helper for C8: the mining loop started at `start` with enough fuel returns
the least satisfying nonce at or above `start`, paired with the hex encoding
of its digest. -/
theorem mineLoop_finds (calculate_hash : HashFn) (block_id : Nat) (timestamp : Int) (prev_hash data : String) (n0 : Nat)
    (hP : meets_difficulty (calculate_hash block_id timestamp prev_hash data n0) = true)
    (hmin : ∀ m, m < n0 → meets_difficulty (calculate_hash block_id timestamp prev_hash data m) = false) :
    ∀ fuel start, start ≤ n0 → n0 < start + fuel →
      mineLoop calculate_hash block_id timestamp prev_hash data fuel start =
        some (n0, hexEncode (calculate_hash block_id timestamp prev_hash data n0)) := by
  intro fuel
  induction fuel with
  | zero =>
    intro start h1 h2
    omega
  | succ fuel ih =>
    intro start h1 h2
    by_cases hs : meets_difficulty (calculate_hash block_id timestamp prev_hash data start) = true
    · have hstart : start = n0 := by
        by_contra hne
        have hlt : start < n0 := lt_of_le_of_ne h1 hne
        rw [hmin start hlt] at hs
        exact Bool.noConfusion hs
      subst hstart
      simp [mineLoop, hs]
    · have hsf : meets_difficulty (calculate_hash block_id timestamp prev_hash data start) = false := by
        cases hmd : meets_difficulty (calculate_hash block_id timestamp prev_hash data start) with
        | false => rfl
        | true => exact absurd hmd hs
      have hne : start ≠ n0 := by
        intro he
        rw [he, hP] at hsf
        exact Bool.noConfusion hsf
      have hstep : mineLoop calculate_hash block_id timestamp prev_hash data (fuel + 1) start =
          mineLoop calculate_hash block_id timestamp prev_hash data fuel (start + 1) := by
        simp [mineLoop, hsf]
      rw [hstep]
      exact ih (start + 1) (by omega) (by omega)

/-- C8: whenever some nonce makes the digest meet the difficulty, the mining
search terminates — any fuel beyond the least such nonce suffices — and
returns exactly that least nonce (the loop starts at 0 and increments by 1)
together with the hex encoding of its digest.  Determinism is immediate:
`mine_block` is a pure function of its arguments. -/
theorem mine_block_returns_least_nonce (calculate_hash : HashFn) (block_id : Nat) (timestamp : Int) (prev_hash data : String)
    (h : ∃ n, meets_difficulty (calculate_hash block_id timestamp prev_hash data n) = true)
    (fuel : Nat) (hfuel : Nat.find h < fuel) :
    mine_block calculate_hash fuel block_id timestamp prev_hash data =
      some (Nat.find h, hexEncode (calculate_hash block_id timestamp prev_hash data (Nat.find h))) := by
  unfold mine_block
  exact mineLoop_finds calculate_hash block_id timestamp prev_hash data (Nat.find h)
    (Nat.find_spec h)
    (fun m hm => by simpa using Nat.find_min h hm)
    fuel 0 (Nat.zero_le _) (by omega)

/-- C8 witness: under `calcHash0` every digest is `[0, 0]`, which meets the
difficulty, so nonce 0 is found with one unit of fuel and the returned hash is
the hex encoding "0000". -/
theorem mine_block_returns_least_nonce_witness :
    mine_block calcHash0 1 0 0 "" "" = some (0, "0000") := by
  have h : ∃ n, meets_difficulty (calcHash0 0 0 "" "" n) = true := ⟨0, rfl⟩
  have hf : Nat.find h = 0 := (Nat.find_eq_zero h).mpr rfl
  have hm := mine_block_returns_least_nonce calcHash0 0 0 "" "" h 1 (by omega)
  rw [hf] at hm
  exact hm.trans (by rfl)

/-- C9: a gossiped block whose `prev_hash` matches the chain tip but whose
stored `hash` is not decodable hex makes the validator panic at the difficulty
check (the `.expect` on the hex decode) instead of returning false, and the
panic propagates through `try_add_block`, the network Block handler — the node
crashes rather than dropping the block with a reported reason. -/
theorem block_valid_invalid_hex_panics (calculate_hash : HashFn) (app : App) (b p : Block)
    (h1 : b.prev_hash = p.hash) (h2 : hex_decode b.hash = none)
    (h3 : app.blockchain.getLast? = some p) :
    is_block_valid calculate_hash b p = Except.error Panic.hexDecodeFailed ∧
    try_add_block calculate_hash app b = Except.error Panic.hexDecodeFailed := by
  have hb : is_block_valid calculate_hash b p = Except.error Panic.hexDecodeFailed := by
    unfold is_block_valid
    simp [h1, h2]
  refine ⟨hb, ?_⟩
  unfold try_add_block
  rw [h3]
  simp [hb]

/-- C9 witness: hash "zz" is not hex; with the genesis block at the tip and a
matching `prev_hash`, validation (and hence block acceptance) panics. -/
theorem block_valid_invalid_hex_panics_witness :
    is_block_valid calcHash0 (Block.mk 1 "zz" "Genesis Hash" 0 "d" 0) (genesisBlock 0) = Except.error Panic.hexDecodeFailed ∧
    try_add_block calcHash0 (App.mk [genesisBlock 0]) (Block.mk 1 "zz" "Genesis Hash" 0 "d" 0) = Except.error Panic.hexDecodeFailed :=
  block_valid_invalid_hex_panics calcHash0 (App.mk [genesisBlock 0])
    (Block.mk 1 "zz" "Genesis Hash" 0 "d" 0) (genesisBlock 0) rfl rfl rfl

/-- C10: `try_add_block` and the create-block handler both unwrap the last
block, so on an empty chain (before Init created the genesis block) each of
them panics; and when the chain is non-empty and validation returns false,
`try_add_block` leaves the chain unchanged. -/
theorem empty_chain_handlers_panic (calculate_hash : HashFn) (fuel : Nat) (t : Int) (cmd : String)
    (app app2 : App) (b b2 latest_block : Block)
    (h1 : app.blockchain = [])
    (h2 : strStartsWith cmd "create b" = true)
    (h3 : app2.blockchain.getLast? = some latest_block)
    (h4 : is_block_valid calculate_hash b2 latest_block = Except.ok false) :
    try_add_block calculate_hash app b = Except.error Panic.emptyChainTryAdd ∧
    handle_create_block calculate_hash fuel t cmd app = Except.error Panic.emptyChainCreateBlock ∧
    try_add_block calculate_hash app2 b2 = Except.ok app2 := by
  refine ⟨?_, ?_, ?_⟩
  · unfold try_add_block
    rw [h1]
    rfl
  · unfold handle_create_block stripPre
    rw [h2, h1]
    simp
  · unfold try_add_block
    rw [h3]
    simp [h4]

/-- C10 witness: the empty chain makes both handlers panic, and an invalid
block against a one-block chain leaves that chain unchanged. -/
theorem empty_chain_handlers_panic_witness :
    try_add_block calcHash0 (App.mk []) blockA = Except.error Panic.emptyChainTryAdd ∧
    handle_create_block calcHash0 1 0 "create block x" (App.mk []) = Except.error Panic.emptyChainCreateBlock ∧
    try_add_block calcHash0 (App.mk [genesisBlock 0]) blockBbad = Except.ok (App.mk [genesisBlock 0]) :=
  empty_chain_handlers_panic calcHash0 1 0 "create block x" (App.mk []) (App.mk [genesisBlock 0])
    blockA blockBbad (genesisBlock 0) rfl rfl rfl rfl
